import Mathlib

/-
Verification of the dynamic watch-registration and event-dispatch engine
(controller-runtime-dynamic-cache).  Strings are modelled as lists of
characters; Go struct fields keep their exported names where Lean allows it.
-/

namespace DynCache

/-- Go strings, modelled as lists of characters. -/
abbrev Str := List Char

/-- Conversion from a Lean string literal to the model's string type. -/
def str (s : String) : Str := s.data

/-- schema.GroupVersionResource. -/
structure GroupVersionResource where
  Group : Str
  Version : Str
  Resource : Str
deriving DecidableEq

/-- schema.GroupVersionKind. -/
structure GroupVersionKind where
  Group : Str
  Version : Str
  Kind : Str
deriving DecidableEq

/-- libraryinputresources.ExactResourceID with its embedded
InputResourceTypeIdentifier flattened: fields Group, Version, Resource come
from the identifier, Namespace and Name are the optional narrowing. -/
structure ExactResourceID where
  Group : Str
  Version : Str
  Resource : Str
  Namespace : Str
  Name : Str
deriving DecidableEq

/-- The GroupVersionResource built from an ExactResourceID, as built at the
top of each registration loop iteration. -/
def gvrOf (res : ExactResourceID) : GroupVersionResource :=
  { Group := res.Group, Version := res.Version, Resource := res.Resource }

/-- client.Object restricted to the accessors the engine reads. -/
structure ClientObject where
  GetNamespace : Str
  GetName : Str
  GetUID : Str
  GetResourceVersion : Str
deriving DecidableEq

/-- event.GenericEvent. -/
structure GenericEvent where
  Object : ClientObject
deriving DecidableEq

/-- types.NamespacedName / client.ObjectKey. -/
structure ObjectKey where
  Namespace : Str
  Name : Str
deriving DecidableEq

/-- reconcile.Request. -/
structure Request where
  NamespacedName : ObjectKey
deriving DecidableEq

/-- The RESTMapper's KindFor operation, the external kind resolver:
some gvk on success, none when no kind is known for the resource. -/
abbrev RESTMapper := GroupVersionResource → Option GroupVersionKind

/-- The errors the engine returns or reports. -/
inductive GoError where
  | kindNotFound (res : ExactResourceID) (operator : Str)
  | requestNameMissingGVK (name : Str)
  | invalidGVKEncoding (encoded : Str)
  | cachesDidNotSync
  | ctxCancelled
  | notClientObject
deriving DecidableEq

/-- eventFilter: pure predicate over a client object. -/
abbrev eventFilter := ClientObject → Bool

/-- exactResourceFilter: the per-selector filter closure.  Mirrors the two
guard clauses of the Go function: a non-empty Namespace must match the
object's namespace, a non-empty Name must match the object's name. -/
def exactResourceFilter (res : ExactResourceID) : eventFilter := fun obj =>
  if res.Namespace ≠ [] ∧ obj.GetNamespace ≠ res.Namespace then false
  else if res.Name ≠ [] ∧ obj.GetName ≠ res.Name then false
  else true

/-- The dispatcher's filter table: map from GroupVersionKind to the list of
filters registered for that kind (Go: map[schema.GroupVersionKind][]eventFilter;
a kind absent from the map reads as the empty list, as in Go). -/
abbrev FiltersMap := GroupVersionKind → List eventFilter

/-- The empty filter table. -/
def emptyFilters : FiltersMap := fun _ => []

/-- filters[gvk] = append(filters[gvk], f): append one filter at the end of
the list kept for gvk. -/
def addFilter (m : FiltersMap) (gvk : GroupVersionKind) (f : eventFilter) : FiltersMap :=
  fun g => if g = gvk then m g ++ [f] else m g

/-- The filter-evaluation loop of eventDispatcher.Handle: walk the filters in
registration order; on the first match send one GenericEvent and return.
The returned list is the sequence of events written to the channel. -/
def handleLoop (cObj : ClientObject) : List eventFilter → List GenericEvent
  | [] => []
  | f :: rest => if f cObj then [{ Object := cObj }] else handleLoop cObj rest

/-- eventDispatcher.Handle (the gvk-keyed variant): look up the filters for
gvk and run the first-match loop.  Result: the events written for this call. -/
def Handle (filters : FiltersMap) (gvk : GroupVersionKind) (cObj : ClientObject) :
    List GenericEvent :=
  handleLoop cObj (filters gvk)

/-! ### Raw callback payloads and normalization -/

/-- The shapes a raw informer callback payload can take: a live client
object, a toolscache.DeletedFinalStateUnknown tombstone whose Obj field may
or may not be a client object, or something else entirely. -/
inductive RawPayload where
  | clientObj (o : ClientObject)
  | tombstone (inner : Option ClientObject)
  | other
deriving DecidableEq

/-- clientObjectFromEvent: type-assert client.Object first; otherwise
type-assert DeletedFinalStateUnknown and unwrap its Obj; otherwise fail. -/
def clientObjectFromEvent : RawPayload → Option ClientObject
  | .clientObj o => some o
  | .tombstone (some o) => some o
  | .tombstone none => none
  | .other => none

/-- enqueueIfMatch (main.go): normalize the payload, apply the selector's two
guard clauses, and on acceptance send one GenericEvent.  The returned list is
the sequence of events written to the channel by this call. -/
def enqueueIfMatch (res : ExactResourceID) (payload : RawPayload) : List GenericEvent :=
  match clientObjectFromEvent payload with
  | none => []
  | some cobj =>
    if res.Namespace ≠ [] ∧ cobj.GetNamespace ≠ res.Namespace then []
    else if res.Name ≠ [] ∧ cobj.GetName ≠ res.Name then []
    else [{ Object := cobj }]

/-- The DeleteFunc handler installed by startAndWaitForInformersFor: try the
live-object shape, then the tombstone shape; otherwise report one non-fatal
internal error via utilruntime.HandleError.  Returns the events written and
the number of error reports. -/
def deleteFuncHandler (filters : FiltersMap) (gvk : GroupVersionKind)
    (payload : RawPayload) : List GenericEvent × Nat :=
  match payload with
  | .clientObj o => (Handle filters gvk o, 0)
  | .tombstone (some o) => (Handle filters gvk o, 0)
  | .tombstone none => ([], 1)
  | .other => ([], 1)

/-- The def-keyed eventDispatcher.Handle of input_resource_initializer.go:
normalize via clientObjectFromEvent, apply the selector's two guard clauses,
send on acceptance.  The function body contains no utilruntime.HandleError
call, so each branch is paired with a zero report count; on normalization
failure it silently returns. -/
def dispatcherHandleDef (res : ExactResourceID) (payload : RawPayload) :
    List GenericEvent × Nat :=
  match clientObjectFromEvent payload with
  | none => ([], 0)
  | some cobj =>
    if res.Namespace ≠ [] ∧ cobj.GetNamespace ≠ res.Namespace then ([], 0)
    else if res.Name ≠ [] ∧ cobj.GetName ≠ res.Name then ([], 0)
    else ([{ Object := cobj }], 0)

/-- enqueueIfMatch paired with its utilruntime.HandleError report count: the
main.go function contains no reporting call on any branch, so every
invocation reports zero errors — on normalization failure it silently
returns. -/
def enqueueIfMatchReports (res : ExactResourceID) (payload : RawPayload) :
    List GenericEvent × Nat :=
  (enqueueIfMatch res payload, 0)

/-! ### Request codec -/

/-- The reserved tokens of the codec. -/
def emptyGroupToken : Str := str "_"

/-- gvkPartSeparator = "/". -/
def gvkPartSeparator : Char := '/'

/-- gvkNameSeparator = "::". -/
def gvkNameSeparator : Str := str "::"

/-- strings.Split on a one-character separator: all parts, in order;
Split("", sep) = [""], and the number of parts is occurrences + 1. -/
def splitChar (sep : Char) : Str → List Str
  | [] => [[]]
  | c :: rest =>
    if c = sep then [] :: splitChar sep rest
    else
      match splitChar sep rest with
      | [] => [[c]]
      | p :: ps => (c :: p) :: ps

/-- strings.SplitN(s, sep, 2) for a non-empty separator, as the optional
split at the first occurrence of sep: none when sep does not occur in s
(Go then returns the one-element slice [s]). -/
def splitOnce (sep : Str) : Str → Option (Str × Str)
  | [] => none
  | c :: rest =>
    if (c :: rest).take sep.length = sep then some ([], (c :: rest).drop sep.length)
    else
      match splitOnce sep rest with
      | none => none
      | some (a, b) => some (c :: a, b)

/-- The group component as encoded: the empty group is replaced by the
empty-group token (the local group variable of encodeGVK). -/
def encodedGroup (g : Str) : Str :=
  if g = [] then emptyGroupToken else g

/-- encodeGVK: group (with "" replaced by the empty-group token), version
and kind joined by the part separator. -/
def encodeGVK (gvk : GroupVersionKind) : Str :=
  encodedGroup gvk.Group
    ++ [gvkPartSeparator] ++ gvk.Version ++ [gvkPartSeparator] ++ gvk.Kind

/-- decodeGVK: split on the part separator, demand exactly three fields, and
map the empty-group token back to the empty group. -/
def decodeGVK (encoded : Str) : Except GoError GroupVersionKind :=
  match splitChar gvkPartSeparator encoded with
  | [g, v, k] =>
    .ok { Group := if g = emptyGroupToken then [] else g, Version := v, Kind := k }
  | _ => .error (.invalidGVKEncoding encoded)

/-- requestFor: the work-queue key for an object of kind gvk — the encoded
gvk, the name separator and the object's name, in the object's namespace. -/
def requestFor (gvk : GroupVersionKind) (obj : ClientObject) : Request :=
  { NamespacedName :=
      { Namespace := obj.GetNamespace
        Name := encodeGVK gvk ++ gvkNameSeparator ++ obj.GetName } }

/-- parseRequest: split the key's name at the first name separator, decode
the gvk half, and return the gvk with the object key. -/
def parseRequest (key : ObjectKey) : Except GoError (GroupVersionKind × ObjectKey) :=
  match splitOnce gvkNameSeparator key.Name with
  | none => .error (.requestNameMissingGVK key.Name)
  | some (p0, p1) =>
    match decodeGVK p0 with
    | .error e => .error e
    | .ok gvk => .ok (gvk, { Namespace := key.Namespace, Name := p1 })

/-! ### Watch registration (dedup) -/

/-- schema.GroupVersionKind.String(): group + "/" + version + ", Kind=" + kind.
The registration loops key their dedup sets on this string. -/
def gvkString (gvk : GroupVersionKind) : Str :=
  gvk.Group ++ str "/" ++ gvk.Version ++ str ", Kind=" ++ gvk.Kind

/-- The inner registration loop over one operator's exact resources, carrying
the dedup set of gvk strings (sets.String).  Returns the list of kinds for
which an informer event handler was registered (one AddEventHandler call per
element, in loop order) together with the final dedup set; fails with the
structured kind-resolution error when KindFor fails. -/
def registerSelectorsAux (mapper : RESTMapper) (operator : Str) :
    List ExactResourceID → List Str → Except GoError (List GroupVersionKind × List Str)
  | [], registered => .ok ([], registered)
  | res :: rest, registered =>
    match mapper (gvrOf res) with
    | none => .error (.kindNotFound res operator)
    | some gvk =>
      if gvkString gvk ∈ registered then
        registerSelectorsAux mapper operator rest registered
      else
        match registerSelectorsAux mapper operator rest (gvkString gvk :: registered) with
        | .error e => .error e
        | .ok (regs, registered2) => .ok (gvk :: regs, registered2)

/-- The registration phase of Start / startAndWaitForInformersFor in the
variants where registeredGVK is created afresh inside the per-operator loop:
each operator's selectors are deduplicated against an initially empty set.
Returns all AddEventHandler registrations, in order. -/
def startRegistrations (mapper : RESTMapper) :
    List (Str × List ExactResourceID) → Except GoError (List GroupVersionKind)
  | [] => .ok []
  | (op, sels) :: rest =>
    match registerSelectorsAux mapper op sels [] with
    | .error e => .error e
    | .ok (regs, _) =>
      match startRegistrations mapper rest with
      | .error e => .error e
      | .ok more => .ok (regs ++ more)

/-- The registration phase of the Start variant whose visited set is created
once before the per-operator loop, so deduplication is global across
operators. -/
def startGlobalAux (mapper : RESTMapper) :
    List (Str × List ExactResourceID) → List Str → Except GoError (List GroupVersionKind)
  | [], _ => .ok []
  | (op, sels) :: rest, visited =>
    match registerSelectorsAux mapper op sels visited with
    | .error e => .error e
    | .ok (regs, visited2) =>
      match startGlobalAux mapper rest visited2 with
      | .error e => .error e
      | .ok more => .ok (regs ++ more)

/-- Start (global-visited variant): registration with one shared visited set. -/
def startGlobalRegistrations (mapper : RESTMapper)
    (inputResources : List (Str × List ExactResourceID)) :
    Except GoError (List GroupVersionKind) :=
  startGlobalAux mapper inputResources []

/-! ### Building the dispatcher's filter table -/

/-- Inner loop of buildInputResourceFilters over one operator's resources:
filters[gvk] = append(filters[gvk], exactResourceFilter(exactResource)). -/
def buildFiltersForSelectors (mapper : RESTMapper) (operator : Str) :
    List ExactResourceID → FiltersMap → Except GoError FiltersMap
  | [], acc => .ok acc
  | res :: rest, acc =>
    match mapper (gvrOf res) with
    | none => .error (.kindNotFound res operator)
    | some gvk =>
      buildFiltersForSelectors mapper operator rest
        (addFilter acc gvk (exactResourceFilter res))

/-- Outer loop of buildInputResourceFilters over the operator map. -/
def buildFiltersAux (mapper : RESTMapper) :
    List (Str × List ExactResourceID) → FiltersMap → Except GoError FiltersMap
  | [], acc => .ok acc
  | (op, sels) :: rest, acc =>
    match buildFiltersForSelectors mapper op sels acc with
    | .error e => .error e
    | .ok acc2 => buildFiltersAux mapper rest acc2

/-- buildInputResourceFilters: one composite filter table for the whole
selector set, keyed by resolved GroupVersionKind. -/
def buildInputResourceFilters (inputResources : List (Str × List ExactResourceID))
    (mapper : RESTMapper) : Except GoError FiltersMap :=
  buildFiltersAux mapper inputResources emptyFilters

/-- The filters contributed to the table's gvk entry by a selector list:
those of the selectors resolving to gvk, in order.  (Proof-side
characterization of what the build loop appends.) -/
def filtersFor (mapper : RESTMapper) (gvk : GroupVersionKind)
    (sels : List ExactResourceID) : List eventFilter :=
  (sels.filter (fun res => mapper (gvrOf res) == some gvk)).map exactResourceFilter

/-! ### Synchronization handshake -/

/-- The observable outcome of the tail of Start: the returned error value and
whether syncedCh was closed. -/
structure StartOutcome where
  result : Except GoError Unit
  syncedClosed : Bool

/-- The tail of Start / startAndWaitForInformersFor: if WaitForCacheSync
reports false, return ctx.Err() when the context was cancelled and a
caches-did-not-sync error otherwise, leaving syncedCh open; if it reports
true (every registered watch stream hydrated), close syncedCh and return nil.
cacheSynced is the collaborator's report that every started informer has
hydrated; ctxErr is ctx.Err() at that moment. -/
def startFinish (cacheSynced : Bool) (ctxErr : Option GoError) : StartOutcome :=
  if cacheSynced then { result := .ok (), syncedClosed := true }
  else
    match ctxErr with
    | some e => { result := .error e, syncedClosed := false }
    | none => { result := .error .cachesDidNotSync, syncedClosed := false }

/-- syncingChannelSource.WaitForSync as a relation on the states of the two
channels the select ranges over: it can return nil only when syncedCh is
closed, and can return ctx.Err() only when the context is done.  The select
blocks (no return at all) while neither is ready. -/
inductive WaitForSyncReturns (syncedClosed : Bool) (ctxErr : Option GoError) :
    Except GoError Unit → Prop where
  | synced : syncedClosed = true → WaitForSyncReturns syncedClosed ctxErr (.ok ())
  | cancelled (e : GoError) : ctxErr = some e →
      WaitForSyncReturns syncedClosed ctxErr (.error e)

/-! ### Coarse routing -/

/-- requestForOperator: a request keyed only by the operator name, with the
zero-value (empty) namespace. -/
def requestForOperator (operatorName : Str) (_obj : ClientObject) : Request :=
  { NamespacedName := { Namespace := [], Name := operatorName } }

/-- operatorNameFromResource: always the fixed operator name. -/
def operatorNameFromResource (_obj : ClientObject) : Str := str "example-operator"

/-- The EnqueueRequestsFromMapFunc body of the coarse-routing variants:
every forwarded object maps to the single fixed request. -/
def mapResourceToRequests (obj : ClientObject) : List Request :=
  [requestForOperator (operatorNameFromResource obj) obj]

/-! ### Concrete inputs from the repository's selector tables -/

/-- configmaps/kube-system/kube-root-ca.crt from discoverInputResources. -/
def cmRes : ExactResourceID :=
  { Group := [], Version := str "v1", Resource := str "configmaps"
    Namespace := str "kube-system", Name := str "kube-root-ca.crt" }

/-- configmaps/kube-system/kubeadm-config from discoverInputResources. -/
def kubeadmRes : ExactResourceID :=
  { Group := [], Version := str "v1", Resource := str "configmaps"
    Namespace := str "kube-system", Name := str "kubeadm-config" }

/-- secrets/kube-system/bootstrap-token-abcdef from discoverInputResources. -/
def secretRes : ExactResourceID :=
  { Group := [], Version := str "v1", Resource := str "secrets"
    Namespace := str "kube-system", Name := str "bootstrap-token-abcdef" }

/-- nodes//kind-control-plane from discoverInputResources. -/
def nodeRes : ExactResourceID :=
  { Group := [], Version := str "v1", Resource := str "nodes"
    Namespace := [], Name := str "kind-control-plane" }

/-- A selector with empty namespace and empty name (watch-all). -/
def watchAllRes : ExactResourceID :=
  { Group := [], Version := str "v1", Resource := str "configmaps"
    Namespace := [], Name := [] }

/-- The v1 ConfigMap kind. -/
def cmGVK : GroupVersionKind := { Group := [], Version := str "v1", Kind := str "ConfigMap" }

/-- A RESTMapper resolving the three core resources used by the repository. -/
def exampleMapper : RESTMapper := fun gvr =>
  if gvr.Resource = str "configmaps" then
    some { Group := gvr.Group, Version := gvr.Version, Kind := str "ConfigMap" }
  else if gvr.Resource = str "secrets" then
    some { Group := gvr.Group, Version := gvr.Version, Kind := str "Secret" }
  else if gvr.Resource = str "nodes" then
    some { Group := gvr.Group, Version := gvr.Version, Kind := str "Node" }
  else none

/-- The kube-root-ca.crt configmap object. -/
def cmObj : ClientObject :=
  { GetNamespace := str "kube-system", GetName := str "kube-root-ca.crt"
    GetUID := str "uid-1", GetResourceVersion := str "7" }

/-- The single-operator selector table of the filter-bearing variant. -/
def exInput : List (Str × List ExactResourceID) :=
  [(str "cluster-authentication-operator", [cmRes, kubeadmRes, secretRes, nodeRes])]

/-- Two operators whose selectors resolve to the same kind (ConfigMap). -/
def twoOpInput : List (Str × List ExactResourceID) :=
  [(str "operator-a", [cmRes]), (str "operator-b", [kubeadmRes])]

/-- The filter table the filter-bearing variant builds for exInput. -/
def exFilters : FiltersMap :=
  match buildInputResourceFilters exInput exampleMapper with
  | .ok fm => fm
  | .error _ => emptyFilters

/-! ## Helper lemmas -/

theorem handleLoop_length_le_one (obj : ClientObject) (fs : List eventFilter) :
    (handleLoop obj fs).length ≤ 1 := by
  induction fs with
  | nil => simp [handleLoop]
  | cons f rest ih =>
    by_cases h : f obj = true <;> simp [handleLoop, h, ih]

theorem handleLoop_length_one_iff (obj : ClientObject) (fs : List eventFilter) :
    (handleLoop obj fs).length = 1 ↔ ∃ f ∈ fs, f obj = true := by
  induction fs with
  | nil => simp [handleLoop]
  | cons f rest ih =>
    by_cases h : f obj = true <;> simp [handleLoop, h, ih]

theorem handleLoop_ne_nil_iff (obj : ClientObject) (fs : List eventFilter) :
    handleLoop obj fs ≠ [] ↔ ∃ f ∈ fs, f obj = true := by
  induction fs with
  | nil => simp [handleLoop]
  | cons f rest ih =>
    by_cases h : f obj = true <;> simp [handleLoop, h, ih]

theorem splitChar_of_not_mem (sep : Char) :
    ∀ a : Str, sep ∉ a → splitChar sep a = [a] := by
  intro a
  induction a with
  | nil => intro _; rfl
  | cons c a2 ih =>
    intro h
    have hc : c ≠ sep := fun hh => h (by simp [hh])
    have h2 : sep ∉ a2 := fun hm => h (List.mem_cons_of_mem _ hm)
    simp [splitChar, hc, ih h2]

theorem splitChar_append (sep : Char) (t : Str) :
    ∀ a : Str, sep ∉ a → splitChar sep (a ++ sep :: t) = a :: splitChar sep t := by
  intro a
  induction a with
  | nil => intro _; simp [splitChar]
  | cons c a2 ih =>
    intro h
    have hc : c ≠ sep := fun hh => h (by simp [hh])
    have h2 : sep ∉ a2 := fun hm => h (List.mem_cons_of_mem _ hm)
    simp [splitChar, hc, ih h2]

theorem splitOnce_colons (n : Str) :
    ∀ e : Str, ':' ∉ e → splitOnce [':', ':'] (e ++ ':' :: ':' :: n) = some (e, n) := by
  intro e
  induction e with
  | nil => intro _; rfl
  | cons c e2 ih =>
    intro h
    have hc : c ≠ ':' := fun hh => h (by simp [hh])
    have h2 : ':' ∉ e2 := fun hm => h (List.mem_cons_of_mem _ hm)
    simp [splitOnce, hc, ih h2]

theorem not_mem_encodedGroup (c : Char) (g : Str) (hc : c ≠ '_') (h : c ∉ g) :
    c ∉ encodedGroup g := by
  unfold encodedGroup
  split
  · simp [emptyGroupToken, str, hc]
  · exact h

theorem decodeGVK_encodeGVK (gvk : GroupVersionKind)
    (hg : gvkPartSeparator ∉ gvk.Group) (hv : gvkPartSeparator ∉ gvk.Version)
    (hk : gvkPartSeparator ∉ gvk.Kind) (hne : gvk.Group ≠ emptyGroupToken) :
    decodeGVK (encodeGVK gvk) = .ok gvk := by
  obtain ⟨G, V, K⟩ := gvk
  simp only at hg hv hk hne
  have hg' : gvkPartSeparator ∉ encodedGroup G :=
    not_mem_encodedGroup gvkPartSeparator G (by decide) hg
  have h1 : splitChar gvkPartSeparator (encodeGVK ⟨G, V, K⟩)
      = [encodedGroup G, V, K] := by
    unfold encodeGVK
    simp only [List.append_assoc, List.singleton_append]
    show splitChar gvkPartSeparator
        (encodedGroup G ++ (gvkPartSeparator :: (V ++ gvkPartSeparator :: K)))
      = [encodedGroup G, V, K]
    rw [splitChar_append gvkPartSeparator _ _ hg', splitChar_append gvkPartSeparator _ _ hv,
      splitChar_of_not_mem gvkPartSeparator _ hk]
  rw [decodeGVK, h1]
  by_cases hG : G = []
  · simp [hG, encodedGroup]
  · simp [encodedGroup, hG, if_neg hne]

theorem colon_not_mem_encodeGVK (gvk : GroupVersionKind)
    (hg : ':' ∉ gvk.Group) (hv : ':' ∉ gvk.Version) (hk : ':' ∉ gvk.Kind) :
    ':' ∉ encodeGVK gvk := by
  have hg' : ':' ∉ encodedGroup gvk.Group :=
    not_mem_encodedGroup ':' gvk.Group (by decide) hg
  unfold encodeGVK
  simp only [List.append_assoc, List.singleton_append]
  intro hmem
  rcases List.mem_append.mp hmem with h | h
  · exact hg' h
  rcases List.mem_cons.mp h with h | h
  · exact absurd h (by decide)
  rcases List.mem_append.mp h with h | h
  · exact hv h
  rcases List.mem_cons.mp h with h | h
  · exact absurd h (by decide)
  · exact hk h

theorem decodeGVK_err_of_len (s : Str)
    (h : (splitChar gvkPartSeparator s).length ≠ 3) :
    decodeGVK s = .error (.invalidGVKEncoding s) := by
  unfold decodeGVK
  split
  · rename_i g v k heq
    rw [heq] at h
    simp at h
  · rfl

theorem buildFiltersForSelectors_spec (mapper : RESTMapper) (op : Str) :
    ∀ (sels : List ExactResourceID) (acc fm : FiltersMap),
      buildFiltersForSelectors mapper op sels acc = .ok fm →
      ∀ gvk, fm gvk = acc gvk ++ filtersFor mapper gvk sels := by
  intro sels
  induction sels with
  | nil =>
    intro acc fm h gvk
    simp only [buildFiltersForSelectors, Except.ok.injEq] at h
    simp [← h, filtersFor]
  | cons res rest ih =>
    intro acc fm h gvk
    cases hm : mapper (gvrOf res) with
    | none =>
      simp only [buildFiltersForSelectors, hm] at h
      exact absurd h (by simp)
    | some g =>
      simp only [buildFiltersForSelectors, hm] at h
      have hrec := ih (addFilter acc g (exactResourceFilter res)) fm h gvk
      rw [hrec]
      by_cases hg : g = gvk
      · subst hg
        simp [addFilter, filtersFor, List.filter_cons, hm, List.append_assoc]
      · have : (mapper (gvrOf res) == some gvk) = false := by
          simp [hm, hg]
        simp [addFilter, filtersFor, List.filter_cons, this, Ne.symm hg]

theorem buildFiltersAux_spec (mapper : RESTMapper) :
    ∀ (irs : List (Str × List ExactResourceID)) (acc fm : FiltersMap),
      buildFiltersAux mapper irs acc = .ok fm →
      ∀ gvk, fm gvk = acc gvk ++ filtersFor mapper gvk ((irs.map Prod.snd).flatten) := by
  intro irs
  induction irs with
  | nil =>
    intro acc fm h gvk
    simp only [buildFiltersAux, Except.ok.injEq] at h
    simp [← h, filtersFor]
  | cons p rest ih =>
    obtain ⟨op, sels⟩ := p
    intro acc fm h gvk
    cases hb : buildFiltersForSelectors mapper op sels acc with
    | error e =>
      simp only [buildFiltersAux, hb] at h
      exact absurd h (by simp)
    | ok acc2 =>
      simp only [buildFiltersAux, hb] at h
      have h1 := buildFiltersForSelectors_spec mapper op sels acc acc2 hb gvk
      have h2 := ih acc2 fm h gvk
      rw [h2, h1, filtersFor, filtersFor, filtersFor]
      simp [List.filter_append, List.append_assoc]

theorem registerSelectorsAux_spec (mapper : RESTMapper) (op : Str) :
    ∀ (sels : List ExactResourceID) (registered : List Str)
      (regs : List GroupVersionKind) (registered2 : List Str),
      registerSelectorsAux mapper op sels registered = .ok (regs, registered2) →
      (regs.map gvkString).Nodup
        ∧ (∀ s ∈ regs.map gvkString, s ∉ registered)
        ∧ (∀ s, s ∈ regs.map gvkString ↔
            (s ∉ registered ∧ ∃ res ∈ sels, ∃ g, mapper (gvrOf res) = some g ∧ gvkString g = s))
        ∧ (∀ s, s ∈ registered2 ↔ (s ∈ registered ∨ s ∈ regs.map gvkString)) := by
  intro sels
  induction sels with
  | nil =>
    intro registered regs registered2 h
    simp only [registerSelectorsAux, Except.ok.injEq, Prod.mk.injEq] at h
    obtain ⟨h1, h2⟩ := h
    subst h1
    subst h2
    simp
  | cons res rest ih =>
    intro registered regs registered2 h
    cases hm : mapper (gvrOf res) with
    | none =>
      simp only [registerSelectorsAux, hm] at h
      exact absurd h (by simp)
    | some g =>
      simp only [registerSelectorsAux, hm] at h
      by_cases hin : gvkString g ∈ registered
      · rw [if_pos hin] at h
        obtain ⟨h1, h2, h3, h4⟩ := ih registered regs registered2 h
        refine ⟨h1, h2, ?_, h4⟩
        intro s
        rw [h3 s]
        constructor
        · rintro ⟨hns, r, hr, g2, hg2, hgs⟩
          exact ⟨hns, r, List.mem_cons_of_mem _ hr, g2, hg2, hgs⟩
        · rintro ⟨hns, r, hr, g2, hg2, hgs⟩
          rcases List.mem_cons.mp hr with heq | hr2
          · subst heq
            rw [hm] at hg2
            cases hg2
            exact absurd (hgs ▸ hin) hns
          · exact ⟨hns, r, hr2, g2, hg2, hgs⟩
      · rw [if_neg hin] at h
        cases haux : registerSelectorsAux mapper op rest (gvkString g :: registered) with
        | error e =>
          rw [haux] at h
          exact absurd h (by simp)
        | ok p =>
          obtain ⟨regs0, r2⟩ := p
          rw [haux] at h
          simp only [Except.ok.injEq, Prod.mk.injEq] at h
          obtain ⟨hregs, hr2⟩ := h
          subst hregs
          subst hr2
          obtain ⟨h1, h2, h3, h4⟩ := ih (gvkString g :: registered) regs0 r2 haux
          have hgnot : gvkString g ∉ regs0.map gvkString := fun hmem =>
            (h2 _ hmem) (List.mem_cons_self _ _)
          refine ⟨?_, ?_, ?_, ?_⟩
          · simp only [List.map_cons, List.nodup_cons]
            exact ⟨hgnot, h1⟩
          · intro s hs
            rcases List.mem_cons.mp hs with heq | hs2
            · subst heq
              exact hin
            · intro hreg
              exact (h2 s hs2) (List.mem_cons_of_mem _ hreg)
          · intro s
            simp only [List.map_cons, List.mem_cons]
            constructor
            · rintro (heq | hs2)
              · subst heq
                exact ⟨hin, res, Or.inl rfl, g, hm, rfl⟩
              · obtain ⟨hns, r, hr, g2, hg2, hgs⟩ := (h3 s).mp hs2
                refine ⟨fun hreg => hns (List.mem_cons_of_mem _ hreg),
                  r, Or.inr hr, g2, hg2, hgs⟩
            · rintro ⟨hns, r, hr, g2, hg2, hgs⟩
              by_cases hsg : s = gvkString g
              · exact Or.inl hsg
              · rcases hr with heq | hr2
                · subst heq
                  rw [hm] at hg2
                  cases hg2
                  exact absurd hgs.symm hsg
                · refine Or.inr ((h3 s).mpr ⟨?_, r, hr2, g2, hg2, hgs⟩)
                  intro hmem
                  rcases List.mem_cons.mp hmem with heq | hreg
                  · exact hsg heq
                  · exact hns hreg
          · intro s
            rw [h4 s]
            simp only [List.map_cons, List.mem_cons]
            tauto

theorem startGlobalAux_nodup (mapper : RESTMapper) :
    ∀ (irs : List (Str × List ExactResourceID)) (visited : List Str)
      (regs : List GroupVersionKind),
      startGlobalAux mapper irs visited = .ok regs →
      (regs.map gvkString).Nodup ∧ ∀ s ∈ regs.map gvkString, s ∉ visited := by
  intro irs
  induction irs with
  | nil =>
    intro visited regs h
    simp only [startGlobalAux, Except.ok.injEq] at h
    subst h
    simp
  | cons p rest ih =>
    obtain ⟨op, sels⟩ := p
    intro visited regs h
    cases haux : registerSelectorsAux mapper op sels visited with
    | error e =>
      simp only [startGlobalAux, haux] at h
      exact absurd h (by simp)
    | ok q =>
      obtain ⟨regs0, visited2⟩ := q
      simp only [startGlobalAux, haux] at h
      cases hrest : startGlobalAux mapper rest visited2 with
      | error e =>
        rw [hrest] at h
        exact absurd h (by simp)
      | ok more =>
        rw [hrest] at h
        simp only [Except.ok.injEq] at h
        subst h
        obtain ⟨h1, h2, _h3, h4⟩ := registerSelectorsAux_spec mapper op sels visited
          regs0 visited2 haux
        obtain ⟨m1, m2⟩ := ih visited2 more hrest
        have hmore_not0 : ∀ s ∈ more.map gvkString, s ∉ regs0.map gvkString := by
          intro s hs hs0
          exact (m2 s hs) ((h4 s).mpr (Or.inr hs0))
        have hmore_notv : ∀ s ∈ more.map gvkString, s ∉ visited := by
          intro s hs hv
          exact (m2 s hs) ((h4 s).mpr (Or.inl hv))
        constructor
        · rw [List.map_append]
          exact List.Nodup.append h1 m1 (fun s hs0 hsm => hmore_not0 s hsm hs0)
        · intro s hs
          rw [List.map_append, List.mem_append] at hs
          rcases hs with hs0 | hsm
          · exact h2 s hs0
          · exact hmore_notv s hsm

/-! ## Claim theorems -/

/-- C5: the request codec round-trips — for a gvk whose components contain
neither separator character (and whose group is not the reserved empty-group
token), parseRequest inverts requestFor, recovering the same gvk, namespace
and object name; the object name may itself contain the reserved name
separator without aliasing. -/
theorem C5_codec_round_trip (gvk : GroupVersionKind) (obj : ClientObject)
    (hgs : gvkPartSeparator ∉ gvk.Group) (hgc : ':' ∉ gvk.Group)
    (hvs : gvkPartSeparator ∉ gvk.Version) (hvc : ':' ∉ gvk.Version)
    (hks : gvkPartSeparator ∉ gvk.Kind) (hkc : ':' ∉ gvk.Kind)
    (hne : gvk.Group ≠ emptyGroupToken) :
    parseRequest (requestFor gvk obj).NamespacedName
      = .ok (gvk, { Namespace := obj.GetNamespace, Name := obj.GetName }) := by
  have hcolon : ':' ∉ encodeGVK gvk := colon_not_mem_encodeGVK gvk hgc hvc hkc
  have hsep : gvkNameSeparator = [':', ':'] := rfl
  have hsplit : splitOnce gvkNameSeparator (encodeGVK gvk ++ gvkNameSeparator ++ obj.GetName)
      = some (encodeGVK gvk, obj.GetName) := by
    rw [hsep, List.append_assoc]
    exact splitOnce_colons obj.GetName (encodeGVK gvk) hcolon
  unfold parseRequest requestFor
  simp only [hsplit]
  rw [decodeGVK_encodeGVK gvk hgs hvs hks hne]

/-- Witness for C5 at the ConfigMap kind and an object whose name contains
the reserved separator. -/
theorem C5_witness :
    parseRequest (requestFor cmGVK
        { GetNamespace := str "ns", GetName := str "a::b", GetUID := [], GetResourceVersion := [] }).NamespacedName
      = .ok (cmGVK, { Namespace := str "ns", Name := str "a::b" }) :=
  C5_codec_round_trip cmGVK
    { GetNamespace := str "ns", GetName := str "a::b", GetUID := [], GetResourceVersion := [] }
    (by decide) (by decide) (by decide) (by decide) (by decide) (by decide) (by decide)

/-- C6: parseRequest fails with the structured missing-separator error when
the name separator is absent, and with the structured invalid-encoding error
when the gvk part does not split into exactly three fields; it returns no
result in either case. -/
theorem C6_malformed_key_error :
    (∀ key : ObjectKey, splitOnce gvkNameSeparator key.Name = none →
      parseRequest key = .error (.requestNameMissingGVK key.Name))
    ∧ (∀ (key : ObjectKey) (p0 p1 : Str),
        splitOnce gvkNameSeparator key.Name = some (p0, p1) →
        (splitChar gvkPartSeparator p0).length ≠ 3 →
        parseRequest key = .error (.invalidGVKEncoding p0)) := by
  constructor
  · intro key h
    unfold parseRequest
    simp only [h]
  · intro key p0 p1 h hlen
    unfold parseRequest
    simp only [h, decodeGVK_err_of_len p0 hlen]

/-- Witness for C6: a key without the separator and a key whose gvk part has
only two fields. -/
theorem C6_witness :
    parseRequest { Namespace := [], Name := str "no-separator-here" }
        = .error (.requestNameMissingGVK (str "no-separator-here"))
    ∧ parseRequest { Namespace := [], Name := str "only/two::obj" }
        = .error (.invalidGVKEncoding (str "only/two")) :=
  ⟨C6_malformed_key_error.1 { Namespace := [], Name := str "no-separator-here" } rfl,
    C6_malformed_key_error.2 { Namespace := [], Name := str "only/two::obj" }
      (str "only/two") (str "obj") rfl (by decide)⟩

/-- C3: one Handle(gvk, obj) call writes exactly one event when at least one
filter registered for gvk matches obj (never more than one even when several
match), and writes none when no filter is registered for gvk. -/
theorem C3_handle_writes_one_event (filters : FiltersMap) (gvk : GroupVersionKind)
    (obj : ClientObject) :
    ((Handle filters gvk obj).length = 1 ↔ ∃ f ∈ filters gvk, f obj = true)
    ∧ (Handle filters gvk obj).length ≤ 1
    ∧ (filters gvk = [] → Handle filters gvk obj = []) := by
  refine ⟨handleLoop_length_one_iff obj (filters gvk),
    handleLoop_length_le_one obj (filters gvk), ?_⟩
  intro h
  simp [Handle, h, handleLoop]

/-- Witness for C3 at a table holding one filter for the ConfigMap kind. -/
theorem C3_witness :
    (Handle (addFilter emptyFilters cmGVK (exactResourceFilter cmRes)) cmGVK cmObj).length = 1 :=
  (C3_handle_writes_one_event (addFilter emptyFilters cmGVK (exactResourceFilter cmRes))
      cmGVK cmObj).1.mpr
    ⟨exactResourceFilter cmRes, by simp [addFilter, emptyFilters], by decide⟩

/-- C4: the per-selector filter accepts an object iff its namespace matches
the selector's (or the selector's namespace is empty) and its name matches
the selector's (or the selector's name is empty); in particular a selector
with both fields empty accepts every object of its kind. -/
theorem C4_exact_resource_filter (res : ExactResourceID) (obj : ClientObject) :
    (exactResourceFilter res obj = true ↔
      (res.Namespace = [] ∨ obj.GetNamespace = res.Namespace)
        ∧ (res.Name = [] ∨ obj.GetName = res.Name))
    ∧ (res.Namespace = [] → res.Name = [] → exactResourceFilter res obj = true) := by
  unfold exactResourceFilter
  constructor
  · split_ifs with h1 h2 <;> simp_all
    tauto
  · intro h1 h2
    split_ifs with g1 g2 <;> simp_all

/-- Witness for C4: the watch-all selector accepts an arbitrary object. -/
theorem C4_witness : exactResourceFilter watchAllRes cmObj = true :=
  (C4_exact_resource_filter watchAllRes cmObj).2 rfl rfl

/-- C7: a DeletedFinalStateUnknown tombstone wrapping o normalizes to the
same object as o delivered directly, and yields the same forwarding decision
in both the enqueueIfMatch path and the DeleteFunc handler path. -/
theorem C7_tombstone_transparent (o : ClientObject) :
    clientObjectFromEvent (.tombstone (some o)) = clientObjectFromEvent (.clientObj o)
    ∧ (∀ res : ExactResourceID,
        enqueueIfMatch res (.tombstone (some o)) = enqueueIfMatch res (.clientObj o))
    ∧ (∀ (filters : FiltersMap) (gvk : GroupVersionKind),
        deleteFuncHandler filters gvk (.tombstone (some o))
          = deleteFuncHandler filters gvk (.clientObj o)) :=
  ⟨rfl, fun _ => rfl, fun _ _ => rfl⟩

/-- C8: WaitForSync can return nil only when syncedCh is closed; syncedCh is
closed by Start only when every started informer reported hydrated; and when
the context is cancelled before syncedCh closes, WaitForSync returns the
cancellation error. -/
theorem C8_wait_for_sync :
    (∀ (sc : Bool) (ce : Option GoError) (r : Except GoError Unit),
      WaitForSyncReturns sc ce r → r = .ok () → sc = true)
    ∧ (∀ (cacheSynced : Bool) (ctxErr : Option GoError),
      (startFinish cacheSynced ctxErr).syncedClosed = true → cacheSynced = true)
    ∧ (∀ (ce : Option GoError) (e : GoError) (r : Except GoError Unit),
      WaitForSyncReturns false ce r → ce = some e → r = .error e) := by
  refine ⟨?_, ?_, ?_⟩
  · intro sc ce r h hr
    cases h with
    | synced hs => exact hs
    | cancelled e he => exact absurd hr (by simp)
  · intro cacheSynced ctxErr h
    cases cacheSynced with
    | true => rfl
    | false => cases ctxErr <;> simp [startFinish] at h
  · intro ce e r h hce
    cases h with
    | synced hs => exact absurd hs (by simp)
    | cancelled e2 he2 => rw [hce] at he2; cases he2; rfl

/-- Witness for C8: both select branches are realizable and startFinish only
closes syncedCh on a hydrated cache. -/
theorem C8_witness :
    (true : Bool) = true
    ∧ (Except.error GoError.ctxCancelled : Except GoError Unit) = .error .ctxCancelled :=
  ⟨C8_wait_for_sync.1 true none (.ok ()) (.synced rfl) rfl,
    C8_wait_for_sync.2.2 (some .ctxCancelled) .ctxCancelled (.error .ctxCancelled)
      (.cancelled .ctxCancelled rfl) rfl⟩

/-- C9 counterexample: the def-keyed dispatcher Handle — one of the cited
event-handling paths — drops the junk payload with zero non-fatal internal
error reports, so the claim's reporting conjunct fails there (and likewise
for enqueueIfMatch). -/
theorem C9_counterexample :
    clientObjectFromEvent .other = none
    ∧ dispatcherHandleDef cmRes .other = ([], 0)
    ∧ enqueueIfMatchReports cmRes .other = ([], 0) :=
  ⟨rfl, rfl, rfl⟩

/-- C9 (amended): a payload that is neither a live client object nor a
tombstone wrapping one is always dropped — no event is written and no error
propagates, every path returning normally; the DeleteFunc informer callback
reports exactly one non-fatal internal error, while enqueueIfMatch and the
def-keyed dispatcher Handle drop the event silently, reporting nothing. -/
theorem C9_malformed_payload_paths (res : ExactResourceID) (filters : FiltersMap)
    (gvk : GroupVersionKind) (payload : RawPayload)
    (h : clientObjectFromEvent payload = none) :
    enqueueIfMatchReports res payload = ([], 0)
    ∧ dispatcherHandleDef res payload = ([], 0)
    ∧ deleteFuncHandler filters gvk payload = ([], 1) := by
  cases payload with
  | clientObj o => simp [clientObjectFromEvent] at h
  | tombstone inner =>
    cases inner with
    | some o => simp [clientObjectFromEvent] at h
    | none => exact ⟨rfl, rfl, rfl⟩
  | other => exact ⟨rfl, rfl, rfl⟩

/-- Witness for the amended C9 at the junk payload. -/
theorem C9_paths_witness :
    enqueueIfMatchReports secretRes .other = ([], 0)
    ∧ dispatcherHandleDef secretRes .other = ([], 0)
    ∧ deleteFuncHandler emptyFilters cmGVK .other = ([], 1) :=
  C9_malformed_payload_paths secretRes emptyFilters cmGVK .other rfl

/-- C10: in the coarse-routing variants every forwarded object, whatever its
namespace or name, maps to the single request named "example-operator" with
empty namespace. -/
theorem C10_coarse_routing (obj : ClientObject) :
    mapResourceToRequests obj
      = [{ NamespacedName := { Namespace := [], Name := str "example-operator" } }] := rfl

/-- C2: with the table built by buildInputResourceFilters, a Handle call for
kind gvk forwards an event exactly when at least one selector (of any
operator) that resolves to gvk matches the object — the per-kind filter is
the union of the per-selector filters. -/
theorem C2_filter_union (irs : List (Str × List ExactResourceID)) (mapper : RESTMapper)
    (fm : FiltersMap) (h : buildInputResourceFilters irs mapper = .ok fm)
    (gvk : GroupVersionKind) (obj : ClientObject) :
    Handle fm gvk obj ≠ [] ↔
      ∃ p ∈ irs, ∃ res ∈ p.2,
        mapper (gvrOf res) = some gvk ∧ exactResourceFilter res obj = true := by
  have hfm := buildFiltersAux_spec mapper irs emptyFilters fm h gvk
  rw [Handle, handleLoop_ne_nil_iff, hfm]
  simp only [emptyFilters, List.nil_append, filtersFor, List.mem_map, List.mem_filter,
    List.mem_flatten, beq_iff_eq]
  constructor
  · rintro ⟨f, ⟨res, ⟨⟨l, ⟨p, hp, rfl⟩, hres⟩, hmap⟩, rfl⟩, hobj⟩
    exact ⟨p, hp, res, hres, hmap, hobj⟩
  · rintro ⟨p, hp, res, hres, hmap, hobj⟩
    exact ⟨exactResourceFilter res,
      ⟨res, ⟨⟨p.2, ⟨p, hp, rfl⟩, hres⟩, hmap⟩, rfl⟩, hobj⟩

/-- Witness for C2: in the built table the kube-root-ca.crt configmap event
is forwarded for the ConfigMap kind. -/
theorem C2_witness : Handle exFilters cmGVK cmObj ≠ [] :=
  (C2_filter_union exInput exampleMapper exFilters rfl cmGVK cmObj).mpr
    ⟨(str "cluster-authentication-operator", [cmRes, kubeadmRes, secretRes, nodeRes]),
      by simp [exInput], cmRes, by simp, rfl, by decide⟩

/-- C1 counterexample: with two operators each holding a selector that
resolves to the ConfigMap kind, the registration phase whose dedup set is
created per operator performs two AddEventHandler registrations for that
kind, not exactly one. -/
theorem C1_counterexample :
    startRegistrations exampleMapper twoOpInput = .ok [cmGVK, cmGVK]
      ∧ ([cmGVK, cmGVK].count cmGVK ≠ 1) :=
  ⟨rfl, by decide⟩

/-- C1 (amended): within one owning operator the registration loop registers
exactly one informer event handler per resolved kind — the registered kind
strings are pairwise distinct and are exactly those resolvable from that
operator's selectors; across operators only the Start variant with the
single shared visited set keeps the registrations distinct. -/
theorem C1_per_operator_dedup :
    (∀ (mapper : RESTMapper) (op : Str) (sels : List ExactResourceID)
        (regs : List GroupVersionKind) (registered2 : List Str),
      registerSelectorsAux mapper op sels [] = .ok (regs, registered2) →
      (regs.map gvkString).Nodup
        ∧ (∀ s, s ∈ regs.map gvkString ↔
            ∃ res ∈ sels, ∃ g, mapper (gvrOf res) = some g ∧ gvkString g = s))
    ∧ (∀ (mapper : RESTMapper) (irs : List (Str × List ExactResourceID))
        (regs : List GroupVersionKind),
      startGlobalRegistrations mapper irs = .ok regs → (regs.map gvkString).Nodup) := by
  constructor
  · intro mapper op sels regs registered2 h
    obtain ⟨h1, _h2, h3, _h4⟩ := registerSelectorsAux_spec mapper op sels [] regs registered2 h
    refine ⟨h1, ?_⟩
    intro s
    rw [h3 s]
    simp
  · intro mapper irs regs h
    exact (startGlobalAux_nodup mapper irs [] regs h).1

/-- Witness for the amended C1: one operator with two configmap selectors
registers the ConfigMap kind once. -/
theorem C1_witness :
    (([cmGVK] : List GroupVersionKind).map gvkString).Nodup :=
  (C1_per_operator_dedup.1 exampleMapper (str "operator-a") [cmRes, kubeadmRes]
    [cmGVK] [gvkString cmGVK] rfl).1

end DynCache
